import Mathlib

/-!
# Verification of the IT Department supervisor routing core

A shallow embedding, in Lean 4, of the supervisor routing/state-machine core
of the `it_department` repository (files `src/agents/supervisor.py`,
`src/agents/developer.py`, `src/graph.py`, `src/state.py`), together with
theorems settling the specification claims about it.

Modelling conventions:
* JSON values produced by `json.loads` are modelled by `PyVal`; Python dicts
  are association lists built with CPython insertion semantics (`dictInsert`:
  an existing key keeps its position and gets the new value, a new key is
  appended), so the lists representing dicts have no duplicate keys.
* Python exceptions are modelled with `Except`: `json.JSONDecodeError` as a
  `none` result of `jsonLoads`, `ValueError` / `AttributeError` raised by
  `_parse_json_response` as `PyErr`, and exceptions escaping a graph node as
  `RunError`.
* The language-model completion call (`llm.invoke`) and the wall clock
  (`datetime.now()`) are environment inputs; they enter the model as
  explicit arguments (an `Except Unit String` response, a `String`
  timestamp) and are universally quantified in the theorems.
* Prompt construction (`PLANNING_PROMPT` / `ROUTING_PROMPT` formatting and
  the `_format_*` helpers) only influences the text sent to the model, and
  the model's answer is an arbitrary injected string here, so the prompt
  strings themselves are not reproduced.
* The `messages` conversation log, `human_approved` / `human_feedback` and
  `final_summary` fields of `AgentState` are presentation/HITL data never
  read by the routing logic under verification and are omitted from the
  embedded state record.
* `src/state.py` declares `agent_outputs` (and the unmodelled `messages`)
  as `Annotated[..., operator.add]`: a LangGraph reducer channel, whose new
  value is the old channel value concatenated with whatever list the node
  returned.  Every node of this repository returns the full list (via
  `**state` or `state.get(...) + [entry]`), so each node execution re-adds
  it; `applyNodeUpdate` models this reducer for the `agent_outputs`
  channel, while all other modelled fields are plain last-value channels.
-/

/-! ## Python JSON values -/

/-- The values `json.loads` can return.  Numbers keep their source literal
(`str()` of a Python number normalises the literal; for the plain integer
literals relevant here the two coincide). -/
inductive PyVal where
  | null
  | bool (b : Bool)
  | num (lit : String)
  | str (s : String)
  | arr (xs : List PyVal)
  | obj (kvs : List (String × PyVal))

/-- The character code of a left curly brace. -/
def lbrace : Char := Char.ofNat 123

/-- The character code of a right curly brace. -/
def rbrace : Char := Char.ofNat 125

/-- The character code of a backtick. -/
def btick : Char := Char.ofNat 96

/-- The character code of a single quote. -/
def squote : Char := Char.ofNat 39

/-- Comma-and-space separation used by Python's container `repr`. -/
def joinComma : List String → String
  | [] => ""
  | [s] => s
  | s :: rest => s ++ ", " ++ joinComma rest

/-- Python `repr()` restricted to JSON-derived values (string escaping inside
`repr` of containers is elided; no claim depends on that rendering). -/
def pyReprOf : PyVal → String
  | .null => "None"
  | .bool true => "True"
  | .bool false => "False"
  | .num l => l
  | .str s => String.mk (squote :: s.data) ++ String.mk [squote]
  | .arr xs => "[" ++ joinComma (xs.attach.map (fun v => pyReprOf v.1)) ++ "]"
  | .obj kvs =>
      "\x7b" ++
        joinComma (kvs.attach.map
          (fun kv => String.mk (squote :: kv.1.1.data) ++ String.mk [squote] ++ ": " ++ pyReprOf kv.1.2)) ++
      "\x7d"
termination_by v => sizeOf v
decreasing_by
  · simp only [PyVal.arr.sizeOf_spec]
    have := List.sizeOf_lt_of_mem v.2
    omega
  · simp only [PyVal.obj.sizeOf_spec]
    have h1 := List.sizeOf_lt_of_mem kv.2
    obtain ⟨⟨a, b⟩, hm⟩ := kv
    simp only [Prod.mk.sizeOf_spec] at h1 ⊢
    omega

/-- Python `str()` on a JSON-derived value. -/
def pyStrOf : PyVal → String
  | .null => "None"
  | .bool true => "True"
  | .bool false => "False"
  | .num l => l
  | .str s => s
  | v => pyReprOf v

/-- Python truthiness of a JSON-derived value (`bool(v)`).  A number is falsy
exactly when it denotes zero: no nonzero digit in the mantissa of its
literal (`NaN`/`Infinity` are truthy). -/
def pyTruthy : PyVal → Bool
  | .null => false
  | .bool b => b
  | .num lit =>
      (lit.data.takeWhile (fun c => c ≠ 'e' ∧ c ≠ 'E')).any
        (fun c => ('1' ≤ c && c ≤ '9') || c = 'N' || c = 'I')
  | .str s => !s.isEmpty
  | .arr xs => !xs.isEmpty
  | .obj kvs => !kvs.isEmpty

/-! ## Python dict operations (association lists with CPython semantics) -/

/-- CPython `d[k] = v`: an existing key keeps its position and receives the
new value; a fresh key is appended. -/
def dictInsert : List (String × PyVal) → String → PyVal → List (String × PyVal)
  | [], k, v => [(k, v)]
  | (k0, v0) :: rest, k, v =>
      if k0 = k then (k0, v) :: rest else (k0, v0) :: dictInsert rest k v

/-- `d.get(k)`: first (and, for lists built with `dictInsert`, only) binding. -/
def pyDictGet : List (String × PyVal) → String → Option PyVal
  | [], _ => none
  | (k0, v0) :: rest, k => if k0 = k then some v0 else pyDictGet rest k

/-- `d.get(k, default)`. -/
def pyDictGetD (m : List (String × PyVal)) (k : String) (d : PyVal) : PyVal :=
  (pyDictGet m k).getD d

/-- Last binding of a key, i.e. the value a CPython dict would hold after
inserting the pairs of the list in order. -/
def pyDictGetLast : List (String × PyVal) → String → Option PyVal
  | [], _ => none
  | (k0, v0) :: rest, k =>
      match pyDictGetLast rest k with
      | some v => some v
      | none => if k0 = k then some v0 else none

/-- `base.update(upd)`: fold the pairs of `upd` into `base` with
`dictInsert` (shallow merge, later values win). -/
def pyDictUpdate : List (String × PyVal) → List (String × PyVal) → List (String × PyVal)
  | base, [] => base
  | base, (k, v) :: rest => pyDictUpdate (dictInsert base k v) rest

/-! ## Python string helpers -/

/-- `needle` is a prefix of `hay`. -/
def leadsWith : List Char → List Char → Bool
  | [], _ => true
  | _ :: _, [] => false
  | a :: as, b :: bs => a = b && leadsWith as bs

/-- Python `needle in hay` (substring containment). -/
def listContains (needle : List Char) : List Char → Bool
  | [] => needle.isEmpty
  | c :: cs => leadsWith needle (c :: cs) || listContains needle cs

/-- Python `needle in hay` on `String`s. -/
def strContains (hay needle : String) : Bool := listContains needle.data hay.data

/-- The whitespace set of Python `str.strip()` restricted to ASCII (the
agent-name strings manipulated here contain no non-ASCII whitespace). -/
def isPyWs (c : Char) : Bool :=
  c = ' ' || c = '\t' || c = '\n' || c = '\r' || c = '\x0b' || c = '\x0c'

/-- Remove the characters satisfying `p` from both ends. -/
def stripOn (p : Char → Bool) (cs : List Char) : List Char :=
  ((cs.dropWhile p).reverse.dropWhile p).reverse

/-- Python `s.strip()`. -/
def pyStrip (s : String) : String := String.mk (stripOn isPyWs s.data)

/-- Python `s.strip(c)` for a single strip character. -/
def pyStripChar (c : Char) (s : String) : String :=
  String.mk (stripOn (fun d => d = c) s.data)

/-- Case folding of one character as Python `str.lower()` performs it on the
Basic Latin and Latin-1 Supplement blocks: `A`-`Z` and the accented
capitals `À`-`Þ` (U+00C0-U+00DE, excluding the multiplication sign U+00D7)
map 32 code points up.  This covers every cased character of the keyword
and label alphabets the source compares against (e.g. `ATENÇÃO` folds to
`atenção`, `PRÓXIMO:` to `próximo:`). -/
def pyLowerChar (c : Char) : Char :=
  if (65 ≤ c.toNat ∧ c.toNat ≤ 90) ∨
      (192 ≤ c.toNat ∧ c.toNat ≤ 222 ∧ c.toNat ≠ 215) then
    Char.ofNat (c.toNat + 32)
  else c

/-- Python `s.lower()` on the character range described at `pyLowerChar`. -/
def pyLower (s : String) : String := String.mk (s.data.map pyLowerChar)

/-- Non-overlapping occurrence count, Python `hay.count(needle)`; the fuel is
the length of the scanned list, enough because each step consumes at least
one character (the source only counts the borderless needle `"erro"`). -/
def countSubGo (needle : List Char) : Nat → List Char → Nat
  | 0, _ => 0
  | _ + 1, [] => 0
  | fuel + 1, c :: cs =>
      if leadsWith needle (c :: cs) then
        1 + countSubGo needle fuel ((c :: cs).drop needle.length)
      else
        countSubGo needle fuel cs

/-- Python `hay.count(needle)` for a nonempty needle. -/
def countSub (needle hay : List Char) : Nat :=
  if needle.isEmpty then 0 else countSubGo needle hay.length hay

/-! ## `json.loads` (strict mode, as used by `_parse_json_response`) -/

/-- JSON whitespace skipped between tokens. -/
def isJsonWs (c : Char) : Bool := c = ' ' || c = '\t' || c = '\n' || c = '\r'

/-- Skip JSON whitespace. -/
def skipWs (cs : List Char) : List Char := cs.dropWhile isJsonWs

/-- Hexadecimal digit value. -/
def hexVal : Char → Option Nat
  | c =>
    if '0' ≤ c ∧ c ≤ '9' then some (c.toNat - '0'.toNat)
    else if 'a' ≤ c ∧ c ≤ 'f' then some (c.toNat - 'a'.toNat + 10)
    else if 'A' ≤ c ∧ c ≤ 'F' then some (c.toNat - 'A'.toNat + 10)
    else none

/-- Turn a decoded scalar value into a `Char`; surrogate code points, which
Python strings can hold but Lean `Char` cannot, map to U+FFFD. -/
def scalarChar (n : Nat) : Char :=
  if n < 0xd800 ∨ (0xe000 ≤ n ∧ n ≤ 0x10ffff) then Char.ofNat n else Char.ofNat 0xfffd

/-- Body of a JSON string after the opening quote, decoded to UTF-16-style
code units (a `\uXXXX` escape may contribute a lone surrogate); returns the
units and the remainder after the closing quote.  Strict mode: unescaped
control characters and unknown escapes are errors. -/
def jstrUnits : List Char → Option (List Nat × List Char)
  | [] => none
  | '"' :: rest => some ([], rest)
  | '\\' :: 'u' :: a :: b :: c :: d :: rest =>
      match hexVal a, hexVal b, hexVal c, hexVal d with
      | some ha, some hb, some hc, some hd =>
          (jstrUnits rest).map (fun p => ((((ha * 16 + hb) * 16 + hc) * 16 + hd) :: p.1, p.2))
      | _, _, _, _ => none
  | '\\' :: e :: rest =>
      let dec : Option Char :=
        if e = '"' then some '"'
        else if e = '\\' then some '\\'
        else if e = '/' then some '/'
        else if e = 'b' then some '\x08'
        else if e = 'f' then some '\x0c'
        else if e = 'n' then some '\n'
        else if e = 'r' then some '\r'
        else if e = 't' then some '\t'
        else none
      match dec with
      | some ch => (jstrUnits rest).map (fun p => (ch.toNat :: p.1, p.2))
      | none => none
  | c :: rest =>
      if c.toNat < 0x20 then none
      else (jstrUnits rest).map (fun p => (c.toNat :: p.1, p.2))

/-- Combine adjacent high/low surrogate code units, as CPython's JSON scanner
does for `\uXXXX` escape pairs. -/
def combineSurr : List Nat → List Char
  | [] => []
  | [h] => [scalarChar h]
  | h :: l :: rest2 =>
      if (0xd800 ≤ h ∧ h ≤ 0xdbff) ∧ (0xdc00 ≤ l ∧ l ≤ 0xdfff) then
        scalarChar (0x10000 + (h - 0xd800) * 0x400 + (l - 0xdc00)) :: combineSurr rest2
      else scalarChar h :: combineSurr (l :: rest2)

/-- Body of a JSON string after the opening quote: decoded characters plus
the remainder after the closing quote. -/
def jstrChars (cs : List Char) : Option (List Char × List Char) :=
  (jstrUnits cs).map (fun p => (combineSurr p.1, p.2))

/-- Optional fraction part `(\.\d+)?` of a JSON number. -/
def jfrac : List Char → (List Char × List Char)
  | '.' :: d :: rest =>
      if d.isDigit then
        ('.' :: (d :: rest).takeWhile Char.isDigit, (d :: rest).dropWhile Char.isDigit)
      else ([], '.' :: d :: rest)
  | cs => ([], cs)

/-- Optional exponent part `([eE][+-]?\d+)?` of a JSON number. -/
def jexp : List Char → (List Char × List Char)
  | e :: rest =>
      if e = 'e' ∨ e = 'E' then
        match rest with
        | s :: d :: rest2 =>
            if (s = '+' ∨ s = '-') ∧ d.isDigit then
              (e :: s :: (d :: rest2).takeWhile Char.isDigit, (d :: rest2).dropWhile Char.isDigit)
            else if s.isDigit then
              (e :: (s :: d :: rest2).takeWhile Char.isDigit, (s :: d :: rest2).dropWhile Char.isDigit)
            else ([], e :: rest)
        | [d] => if d.isDigit then (e :: [d], []) else ([], e :: rest)
        | [] => ([], [e])
      else ([], e :: rest)
  | [] => ([], [])

/-- Lex a JSON number literal `-?(0|[1-9]\d*)(\.\d+)?([eE][+-]?\d+)?`,
returning the matched literal and the remainder. -/
def jnum (cs : List Char) : Option (String × List Char) :=
  let (sign, cs1) : List Char × List Char :=
    match cs with
    | '-' :: rest => (['-'], rest)
    | _ => ([], cs)
  match cs1 with
  | [] => none
  | c :: rest =>
    if c = '0' then
      let (fr, cs2) := jfrac rest
      let (ex, cs3) := jexp cs2
      some (String.mk (sign ++ '0' :: (fr ++ ex)), cs3)
    else if c.isDigit then
      let ds := (c :: rest).takeWhile Char.isDigit
      let cs2 := (c :: rest).dropWhile Char.isDigit
      let (fr, cs3) := jfrac cs2
      let (ex, cs4) := jexp cs3
      some (String.mk (sign ++ ds ++ fr ++ ex), cs4)
    else none

/-- Parsing mode of the fuel-indexed JSON parser: a single value, the
elements of an array after `[`, or the members of an object after `\x7b`. -/
inductive JMode where
  | value
  | arrRest (acc : List PyVal)
  | objRest (acc : List (String × PyVal))

/-- Recursive-descent JSON parser; the fuel only bounds recursion depth and
`jsonLoads` supplies more than any input can consume. -/
def jp : Nat → JMode → List Char → Option (PyVal × List Char)
  | 0, _, _ => none
  | fuel + 1, JMode.value, cs0 =>
    match skipWs cs0 with
    | [] => none
    | c :: rest =>
      if c = lbrace then
        match skipWs rest with
        | c2 :: r3 => if c2 = rbrace then some (.obj [], r3) else jp fuel (.objRest []) rest
        | [] => none
      else if c = '[' then
        match skipWs rest with
        | c2 :: r3 => if c2 = ']' then some (.arr [], r3) else jp fuel (.arrRest []) rest
        | [] => none
      else if c = '"' then
        (jstrChars rest).map (fun p => (.str (String.mk p.1), p.2))
      else if c = 'n' then
        match rest with
        | 'u' :: 'l' :: 'l' :: r => some (.null, r)
        | _ => none
      else if c = 't' then
        match rest with
        | 'r' :: 'u' :: 'e' :: r => some (.bool true, r)
        | _ => none
      else if c = 'f' then
        match rest with
        | 'a' :: 'l' :: 's' :: 'e' :: r => some (.bool false, r)
        | _ => none
      else if c = 'N' then
        match rest with
        | 'a' :: 'N' :: r => some (.num "NaN", r)
        | _ => none
      else if c = 'I' then
        match rest with
        | 'n' :: 'f' :: 'i' :: 'n' :: 'i' :: 't' :: 'y' :: r => some (.num "Infinity", r)
        | _ => none
      else if c = '-' then
        match rest with
        | 'I' :: 'n' :: 'f' :: 'i' :: 'n' :: 'i' :: 't' :: 'y' :: r => some (.num "-Infinity", r)
        | _ => (jnum (c :: rest)).map (fun p => (.num p.1, p.2))
      else if c.isDigit then
        (jnum (c :: rest)).map (fun p => (.num p.1, p.2))
      else none
  | fuel + 1, JMode.arrRest acc, cs =>
    match jp fuel JMode.value cs with
    | none => none
    | some (v, r) =>
      match skipWs r with
      | ',' :: r3 => jp fuel (.arrRest (acc ++ [v])) r3
      | c :: r3 => if c = ']' then some (.arr (acc ++ [v]), r3) else none
      | [] => none
  | fuel + 1, JMode.objRest acc, cs =>
    match skipWs cs with
    | '"' :: r =>
      match jstrChars r with
      | none => none
      | some (k, r2) =>
        match skipWs r2 with
        | ':' :: r3 =>
          match jp fuel JMode.value r3 with
          | none => none
          | some (v, r4) =>
            let acc2 := dictInsert acc (String.mk k) v
            match skipWs r4 with
            | ',' :: r5 => jp fuel (.objRest acc2) r5
            | c :: r5 => if c = rbrace then some (.obj acc2, r5) else none
            | [] => none
        | _ => none
    | _ => none

/-- `json.loads`: parse one JSON value and reject trailing non-whitespace;
`none` models `json.JSONDecodeError`. -/
def jsonLoads (cs : List Char) : Option PyVal :=
  match jp (2 * cs.length + 4) JMode.value cs with
  | some (v, rest) => if (skipWs rest).isEmpty then some v else none
  | none => none

/-! ## `_parse_json_response` (src/agents/supervisor.py, lines 190-254) -/

/-- The `VALID_AGENTS` set of `supervisor.py` as a list in source order.
CPython iterates a `set` in an unspecified (hash-seeded) order; only the
membership facts proved below are order-independent. -/
def VALID_AGENTS : List String := ["developer", "qa", "reviewer", "devops", "docs", "FINISH"]

/-- `VALID_AGENTS - {"FINISH"}`: the five dispatchable worker roles. -/
def WORKER_AGENTS : List String := ["developer", "qa", "reviewer", "devops", "docs"]

/-- The literal `` ```json `` fence opener. -/
def fenceJsonChars : List Char := [btick, btick, btick, 'j', 's', 'o', 'n']

/-- The literal `` ``` `` fence. -/
def fenceChars : List Char := [btick, btick, btick]

/-- Split at the first occurrence of `needle`: text before it and text after
it, or `none` when absent. -/
def splitAtSub (needle : List Char) : List Char → Option (List Char × List Char)
  | [] => if needle.isEmpty then some ([], []) else none
  | c :: cs =>
      if leadsWith needle (c :: cs) then some ([], (c :: cs).drop needle.length)
      else
        match splitAtSub needle cs with
        | some (pre, post) => some (c :: pre, post)
        | none => none

/-- Strategy 1, `re.search(r'```json\s*(.*?)\s*```', clean, re.DOTALL)`:
the text between the first `` ```json `` and the first following `` ``` ``,
stripped (the greedy `\s*` edges plus the source's `.strip()` reduce to one
strip of the enclosed group). -/
def fencedJsonBlock (cs : List Char) : Option (List Char) :=
  match splitAtSub fenceJsonChars cs with
  | some (_, rest) =>
      match splitAtSub fenceChars rest with
      | some (body, _) => some (stripOn isPyWs body)
      | none => none
  | none => none

/-- Strategy 2, `re.search(r'```\s*(.*?)\s*```', clean, re.DOTALL)`: the text
between the first `` ``` `` and the next one, stripped. -/
def fencedBlock (cs : List Char) : Option (List Char) :=
  match splitAtSub fenceChars cs with
  | some (_, rest) =>
      match splitAtSub fenceChars rest with
      | some (body, _) => some (stripOn isPyWs body)
      | none => none
  | none => none

/-- A character that is not a curly brace. -/
def nonBrace (c : Char) : Bool := c ≠ lbrace && c ≠ rbrace

/-- Attempt of the pattern `\{[^{}]*(?:\{[^{}]*\}[^{}]*)?\}` anchored at the
head of `cs` (a brace block with at most one nested level). -/
def matchBraceAt : List Char → Option (List Char)
  | [] => none
  | c :: rest =>
      if c = lbrace then
        let r1 := rest.takeWhile nonBrace
        match rest.dropWhile nonBrace with
        | c1 :: rest1 =>
            if c1 = rbrace then some (lbrace :: r1 ++ [rbrace])
            else
              let r2 := rest1.takeWhile nonBrace
              match rest1.dropWhile nonBrace with
              | c2 :: rest2 =>
                  if c2 = rbrace then
                    let r3 := rest2.takeWhile nonBrace
                    match rest2.dropWhile nonBrace with
                    | c3 :: _ =>
                        if c3 = rbrace then
                          some (lbrace :: r1 ++ lbrace :: r2 ++ rbrace :: r3 ++ [rbrace])
                        else none
                    | [] => none
                  else none
              | [] => none
        | [] => none
      else none

/-- Strategy 3, `re.search(r'\{[^{}]*(?:\{[^{}]*\}[^{}]*)?\}', clean)`:
leftmost match of the bounded brace pattern. -/
def firstBraceBlock : List Char → Option (List Char)
  | [] => none
  | c :: cs =>
      match matchBraceAt (c :: cs) with
      | some m => some m
      | none => firstBraceBlock cs

/-- Strategy 4 (the greedy last resort), `re.search(r'\{.*\}', clean,
re.DOTALL)`: from the first `\x7b` through the last `\x7d` after it. -/
def greedyBraceBlock (cs : List Char) : Option (List Char) :=
  match splitAtSub [lbrace] cs with
  | some (_, rest) =>
      match rest.reverse.dropWhile (fun c => c ≠ rbrace) with
      | [] => none
      | rev => some (lbrace :: rev.reverse)
  | none => none

/-- The candidate JSON text selected by strategies 1-3 of
`_parse_json_response` (falling back to the stripped raw text). -/
def extractCandidate (cs : List Char) : List Char :=
  match fencedJsonBlock cs with
  | some b => b
  | none =>
      match fencedBlock cs with
      | some b => b
      | none =>
          match firstBraceBlock cs with
          | some m => stripOn isPyWs m
          | none => cs

/-- The label markers stripped off the front of a `next_agent` value. -/
def agentLabels : List String := ["agente:", "agent:", "próximo:", "next:"]

/-- The prefix-stripping loop of `_parse_json_response`: each label in turn
is removed (by character count) when the lowercased current value starts
with it, and the remainder is stripped. -/
def stripAgentLabels (labels : List String) (a : String) : String :=
  labels.foldl
    (fun acc p =>
      if leadsWith p.data (pyLower acc).data then
        pyStrip (String.mk (acc.data.drop p.data.length))
      else acc)
    a

/-- The `next_agent` sanitisation of `_parse_json_response`: coerce to `str`,
strip whitespace and quotes, keep the segment before a `|`, drop label
markers, fold a case-insensitive `finish` to `FINISH`, and finally force
membership in `VALID_AGENTS` via substring match with `FINISH` fallback. -/
def sanitizeAgent (v : PyVal) : String :=
  let a := pyStripChar squote (pyStripChar '"' (pyStrip (pyStrOf v)))
  let a := if strContains a "|" then pyStrip (String.mk (a.data.takeWhile (fun c => c ≠ '|'))) else a
  let a := stripAgentLabels agentLabels a
  let a := if pyLower a = "finish" then "FINISH" else a
  if a ∈ VALID_AGENTS then a
  else
    match VALID_AGENTS.find? (fun w => strContains (pyLower a) w) with
    | some m => m
    | none => "FINISH"

/-- Exceptions `_parse_json_response` can raise: the `ValueError` it raises
itself when no JSON object can be decoded (or the decoded value is `None`),
and the `AttributeError` CPython raises at `data.get(...)` when
`json.loads` produced a non-`dict`, non-`None` value. -/
inductive PyErr where
  | valueError
  | attributeError
deriving DecidableEq

/-- Result of a successful `_parse_json_response`: the parsed dict with its
`next_agent` entry overwritten by the sanitised value (also exposed
directly as `next_agent`). -/
structure ParsedResponse where
  fields : List (String × PyVal)
  next_agent : String

/-- `_parse_json_response(raw)`: strip, extract a JSON candidate via the
four strategies, `json.loads` it, then validate/sanitise `next_agent`.
Raises `ValueError` when nothing parses (or parses to `None`) and
`AttributeError` when the parsed value is not a dict. -/
def parse_json_response (raw : String) : Except PyErr ParsedResponse :=
  let clean0 := stripOn isPyWs raw.data
  let clean := extractCandidate clean0
  let data? : Option PyVal :=
    match jsonLoads clean with
    | some v => some v
    | none =>
        match greedyBraceBlock clean with
        | some g => jsonLoads g
        | none => none
  match data? with
  | none => Except.error PyErr.valueError
  | some PyVal.null => Except.error PyErr.valueError
  | some (PyVal.obj kvs) =>
      let agent := sanitizeAgent (pyDictGetD kvs "next_agent" (PyVal.str ""))
      Except.ok ⟨dictInsert kvs "next_agent" (PyVal.str agent), agent⟩
  | some _ => Except.error PyErr.attributeError

/-! ## Shared run state (src/state.py, src/graph.py) -/

/-- One `routing_history` entry `\x7biteration, agent, reason, timestamp\x7d`.
`agent` and `reason` hold whatever values the parsed dict supplied (the code
stores them unconverted), hence `PyVal`. -/
structure RouteEntry where
  iteration : Nat
  agent : PyVal
  reason : PyVal
  timestamp : String

/-- One `agent_outputs` entry `\x7bagent, output, status, timestamp,
iteration\x7d` appended by `record_agent_output`. -/
structure OutputEntry where
  agent : String
  output : String
  status : String
  timestamp : String
  iteration : Nat

/-- The `AgentState` fields read or written by the routing core.  `plan`,
`next_agent` and `current_instruction` are `PyVal` because the source
assigns them raw values out of the parsed dict. -/
structure AgentState where
  task : String
  repo_path : String
  plan : PyVal
  next_agent : PyVal
  current_instruction : PyVal
  iteration : Nat
  routing_history : List RouteEntry
  agent_outputs : List OutputEntry
  artifacts : List (String × PyVal)

/-- `create_initial_state` of `src/graph.py` (path resolution elided: the
path string is opaque to the routing core). -/
def create_initial_state (task repoPath : String) : AgentState :=
  { task := task
    repo_path := repoPath
    plan := PyVal.str ""
    next_agent := PyVal.str ""
    current_instruction := PyVal.str ""
    iteration := 0
    routing_history := []
    agent_outputs := []
    artifacts := [] }

/-! ## `supervisor_node` (src/agents/supervisor.py, lines 289-468) -/

/-- Exceptions that can escape `supervisor_node`: a transport/timeout error
of the unguarded `llm.invoke` call, and the `AttributeError` of
`_parse_json_response` that the `except ValueError` at both call sites
does not catch. -/
inductive RunError where
  | transport
  | attributeError
deriving DecidableEq

/-- The guard of the planning branch:
`if iteration == 0 or not plan:`. -/
def planningPhase (st : AgentState) : Bool :=
  st.iteration == 0 || !pyTruthy st.plan

/-- The hard-coded fallback planning dict used when `_parse_json_response`
raises `ValueError` (its `thinking` field is `str(e)`, the `ValueError`
message built from the first 500 characters of the raw response). -/
def planningFallback (task raw : String) : List (String × PyVal) :=
  [("plan", PyVal.str ("Executar task: " ++ task)),
   ("first_agent", PyVal.str "developer"),
   ("first_instruction", PyVal.str task),
   ("complexity", PyVal.str "medium"),
   ("thinking", PyVal.str ("Não foi possível parsear JSON da resposta:\n" ++
      String.mk (raw.data.take 500))),
   ("estimated_steps", PyVal.num "3")]

/-- The planning branch after a planning dict has been obtained: sanitise
`first_agent` (pipe split, `finish` and out-of-domain values default to
`"developer"`) and write `plan`, `next_agent`, `current_instruction`,
`iteration = 1` and an empty `routing_history` into the state. -/
def planningApply (st : AgentState) (data0 : List (String × PyVal)) : AgentState :=
  let fa := pyStrip (pyStrOf (pyDictGetD data0 "first_agent" (PyVal.str "developer")))
  let fa := if strContains fa "|" then pyStrip (String.mk (fa.data.takeWhile (fun c => c ≠ '|'))) else fa
  let fa := if pyLower fa = "finish" then "developer" else fa
  let fa := if fa ∈ WORKER_AGENTS then fa else "developer"
  let data := dictInsert data0 "first_agent" (PyVal.str fa)
  { st with
    plan := pyDictGetD data "plan" (PyVal.str "")
    next_agent := pyDictGetD data "first_agent" (PyVal.str "developer")
    current_instruction := pyDictGetD data "first_instruction" (PyVal.str st.task)
    iteration := 1
    routing_history := []
    agent_outputs := st.agent_outputs
    artifacts := st.artifacts }

/-- Phase 1 of `supervisor_node`: parse the planning response, catching only
`ValueError` (replaced by `planningFallback`); an `AttributeError`
propagates. -/
def planningStep (st : AgentState) (raw : String) : Except RunError AgentState :=
  match parse_json_response raw with
  | .error PyErr.attributeError => .error RunError.attributeError
  | .error PyErr.valueError => .ok (planningApply st (planningFallback st.task raw))
  | .ok pr => .ok (planningApply st pr.fields)

/-- The hard-coded fallback routing decision used when
`_parse_json_response` raises `ValueError`. -/
def routingFallback : List (String × PyVal) :=
  [("next_agent", PyVal.str "FINISH"),
   ("instruction", PyVal.str ""),
   ("reason", PyVal.str "Erro ao parsear resposta do supervisor"),
   ("thinking", PyVal.str "Encerrando por segurança"),
   ("plan_update", PyVal.null)]

/-- The routing branch after a decision dict has been obtained: append one
`routing_history` entry carrying the current iteration, overwrite
`next_agent` / `current_instruction`, replace `plan` when `plan_update` is
truthy, and increment `iteration`. -/
def routingApply (st : AgentState) (data : List (String × PyVal)) (now : String) : AgentState :=
  let next_agent := pyDictGetD data "next_agent" (PyVal.str "FINISH")
  let instruction := pyDictGetD data "instruction" (PyVal.str "")
  let reason := pyDictGetD data "reason" (PyVal.str "")
  let plan_update := pyDictGetD data "plan_update" PyVal.null
  { st with
    next_agent := next_agent
    current_instruction := instruction
    plan := if pyTruthy plan_update then plan_update else st.plan
    iteration := st.iteration + 1
    routing_history := st.routing_history ++ [⟨st.iteration, next_agent, reason, now⟩] }

/-- Phase 2 of `supervisor_node`: parse the routing response, catching only
`ValueError` (replaced by `routingFallback`); an `AttributeError`
propagates. -/
def routingStep (st : AgentState) (raw : String) (now : String) : Except RunError AgentState :=
  match parse_json_response raw with
  | .error PyErr.attributeError => .error RunError.attributeError
  | .error PyErr.valueError => .ok (routingApply st routingFallback now)
  | .ok pr => .ok (routingApply st pr.fields now)

/-- `supervisor_node`: invoke the completion function (a failure of the call
itself is uncaught and propagates), then run the planning or the routing
branch.  `MAX_ITERATIONS` occurs in this function only inside the routing
prompt text, which feeds the (universally quantified) model response, so
it is not a parameter here. -/
def supervisor_node (st : AgentState) (response : Except Unit String) (now : String) :
    Except RunError AgentState :=
  match response with
  | .error _ => .error RunError.transport
  | .ok raw => if planningPhase st then planningStep st raw else routingStep st raw now

/-! ## `route_after_supervisor` (src/agents/supervisor.py, lines 471-494) -/

/-- The LangGraph `END` sentinel. -/
def END : String := "__end__"

/-- Default of `ITDEPT_MAX_ITERATIONS`; the theorems quantify over the
configured ceiling. -/
def MAX_ITERATIONS : Nat := 12

/-- `route_after_supervisor`: `END` once `iteration` exceeds the ceiling,
`END` on `"FINISH"`, the worker name when it is one of the five dispatch
targets, `END` on anything else (a non-string `next_agent` fails both the
equality and the membership test). -/
def route_after_supervisor (maxIterations : Nat) (st : AgentState) : String :=
  if st.iteration > maxIterations then END
  else
    match st.next_agent with
    | PyVal.str s =>
        if s = "FINISH" then END
        else if s ∈ WORKER_AGENTS then s
        else END
    | _ => END

/-! ## `record_agent_output` (src/agents/supervisor.py, lines 502-553) -/

/-- `record_agent_output`: append one `agent_outputs` entry stamped with the
current iteration and shallow-merge the (truthy) artifacts dict into
`state.artifacts`; `none` models passing `artifacts=None`. -/
def record_agent_output (st : AgentState) (agent_name output status : String)
    (artifacts : Option (List (String × PyVal))) (now : String) : AgentState :=
  let entry : OutputEntry :=
    { agent := agent_name, output := output, status := status,
      timestamp := now, iteration := st.iteration }
  let updated_artifacts :=
    match artifacts with
    | some l => if l.isEmpty then st.artifacts else pyDictUpdate st.artifacts l
    | none => st.artifacts
  { st with
    agent_outputs := st.agent_outputs ++ [entry]
    artifacts := updated_artifacts }

/-! ## `developer_node` (src/agents/developer.py, lines 143-264) -/

/-- The error keywords of `_infer_status`. -/
def errorKeywords : List String :=
  ["erro", "error", "falha", "failed", "exception", "traceback",
   "não foi possível", "could not"]

/-- The warning keywords of `_infer_status`. -/
def warningKeywords : List String :=
  ["aviso", "warning", "atenção", "cuidado", "parcialmente", "incompleto"]

/-- `_infer_status`: `"error"` only when an error keyword occurs and either
`"erro"` occurs more than twice or a cross-mark glyph is present;
otherwise fall through to the warning check. -/
def infer_status (output : String) : String :=
  let lower := pyLower output
  if errorKeywords.any (fun k => strContains lower k) ∧
      (countSub "erro".data lower.data > 2 ∨ strContains output "❌") then "error"
  else if warningKeywords.any (fun k => strContains lower k) then "warning"
  else "success"

/-- Extensions of the `files_changed` pattern of `_extract_artifacts`. -/
def fileExts : List String := ["py", "js", "ts", "json", "yaml", "yml", "toml", "md", "txt"]

/-- Whether a backtick-free segment matches `[^`]+\.(?:py|js|...)`: it ends
in a dot plus one of the extensions, with at least one character before
the dot. -/
def extMatch (seg : List Char) : Bool :=
  fileExts.any (fun e =>
    leadsWith ('.' :: e.data).reverse seg.reverse && seg.length > e.data.length + 1)

/-- Scan for the non-overlapping matches of
``re.findall(r'`([^`]+\.(?:py|js|...))`', output)``: a candidate starts at a
backtick and extends to the next backtick; after a failed candidate the
search resumes at its closing backtick, after a successful one beyond it.
The fuel is the input length (every step consumes a character). -/
def scanFilesGo : Nat → List Char → List String
  | 0, _ => []
  | _ + 1, [] => []
  | fuel + 1, c :: cs =>
      if c = btick then
        match splitAtSub [btick] cs with
        | some (seg, rest) =>
            if extMatch seg then String.mk seg :: scanFilesGo fuel rest
            else scanFilesGo fuel cs
        | none => []
      else scanFilesGo fuel cs

/-- All backtick-quoted file names in the output, in match order. -/
def scanFiles (cs : List Char) : List String := scanFilesGo cs.length cs

/-- The conventional-commit keywords of the `commit_message` pattern. -/
def commitKinds : List String := ["feat", "fix", "refactor", "chore", "test", "docs"]

/-- Attempt of `(?:feat|fix|refactor|chore|test|docs)\([^)]+\):[^\n]+`
anchored at the head of `cs` (at most one keyword can prefix-match a given
position, none being a prefix of another). -/
def commitMatchAt (cs : List Char) : Option (List Char) :=
  match commitKinds.find? (fun k => leadsWith k.data cs) with
  | some k =>
      match cs.drop k.data.length with
      | '(' :: r2 =>
          let inner := r2.takeWhile (fun c => c ≠ ')')
          if inner.isEmpty then none
          else
            match r2.dropWhile (fun c => c ≠ ')') with
            | ')' :: ':' :: r3 =>
                let msg := r3.takeWhile (fun c => c ≠ '\n')
                if msg.isEmpty then none
                else some (k.data ++ '(' :: inner ++ ')' :: ':' :: msg)
            | _ => none
      | _ => none
  | none => none

/-- Leftmost match of the commit-message pattern
(`re.search` scanning position by position). -/
def scanCommit : List Char → Option (List Char)
  | [] => none
  | c :: cs =>
      match commitMatchAt (c :: cs) with
      | some m => some m
      | none => scanCommit cs

/-- `_extract_artifacts`: backtick-quoted file names (deduplicated — CPython
materialises them through `list(set(...))`, whose order is unspecified),
a conventional-commit message, and a `code_changed` flag keyed on tool
names appearing in the lowercased output. -/
def extract_artifacts (output : String) : List (String × PyVal) :=
  let files := (scanFiles output.data).dedup
  let a1 : List (String × PyVal) :=
    if files.isEmpty then [] else [("files_changed", PyVal.arr (files.map PyVal.str))]
  let a2 :=
    match scanCommit output.data with
    | some m => a1 ++ [("commit_message", PyVal.str (pyStrip (String.mk m)))]
    | none => a1
  if ["write_file", "patch_file", "commit"].any (fun k => strContains (pyLower output) k) then
    a2 ++ [("code_changed", PyVal.bool true)]
  else a2

/-- `developer_node`: the whole ReAct invocation sits in a
`try/except Exception` block, so the node itself is a total function of
the invocation result — `Except.error emsg` models a raised exception
rendered as `f"\x7btype(e).__name__\x7d: \x7be\x7d"`, turned into an
error-status report and recorded through `record_agent_output` exactly
like a success. -/
def developer_node (st : AgentState) (agentResult : Except String String) (now : String) :
    AgentState :=
  match agentResult with
  | .ok output =>
      record_agent_output st "developer" output (infer_status output)
        (some (extract_artifacts output)) now
  | .error emsg =>
      record_agent_output st "developer" ("❌ Erro no Developer Agent: " ++ emsg) "error"
        (some []) now

/-! ## The compiled graph loop (src/graph.py, `build_graph` / `run_task`)

The `StateGraph` topology is: entry point `supervisor`; a conditional edge
from `supervisor` through `route_after_supervisor` to one of the five
worker nodes or `END`; an unconditional edge from every worker back to
`supervisor`.  `runLoop` is that loop.  Every worker node (and the stub
`_import_agent` substitutes for a missing one) has the same state effect:
one `record_agent_output` call whose output/status/artifacts arguments the
worker computed internally — including the synthesised error report of its
`except Exception` handler — so a worker turn is modelled by those three
arguments, supplied per dispatch by the oracle.

Channel semantics: after a node function returns, LangGraph applies each
returned key to its channel.  All modelled fields are last-value channels
except `agent_outputs`, whose `operator.add` reducer concatenates the
returned list onto the channel.  Since the supervisor returns the list
unchanged and a worker returns it with one entry appended, the channel
doubles at a supervisor step and doubles-plus-one at a worker step. -/

/-- LangGraph's application of a node's returned state to the channels:
`agent_outputs` is an `operator.add` channel (old value concatenated with
the returned list), every other modelled field is last-value. -/
def applyNodeUpdate (st ret : AgentState) : AgentState :=
  { ret with agent_outputs := st.agent_outputs ++ ret.agent_outputs }

/-- The state-relevant result of one worker-node invocation: the arguments
it hands to `record_agent_output`. -/
structure WorkerEffect where
  output : String
  status : String
  artifacts : List (String × PyVal)

/-- The environment of a run: the completion response and timestamp of each
supervisor call (indexed by call number), and the effect and timestamp of
each worker dispatch (indexed by dispatch number). -/
structure RunOracle where
  resp : Nat → Except Unit String
  supTime : Nat → String
  work : Nat → WorkerEffect
  workTime : Nat → String

/-- Ghost instrumentation of a run, not part of the program state: how many
planning-phase and routing-phase supervisor calls were made, how many
workers were dispatched, and how many emitted decisions named a worker
rather than the terminal sentinel. -/
structure RunStats where
  planningCalls : Nat
  routingCalls : Nat
  dispatches : Nat
  nonTerminal : Nat
deriving DecidableEq

/-- How a run ends: a terminal decision (the graph reached `END`) with the
final state, or an exception escaping a supervisor step. -/
inductive RunOutcome where
  | finished (final : AgentState) (stats : RunStats)
  | crashed (e : RunError)

/-- Whether a decision value is the terminal sentinel. -/
def isFinishVal : PyVal → Bool
  | PyVal.str s => s = "FINISH"
  | _ => false

/-- The graph loop: supervisor step, conditional edge, worker step, repeat.
The fuel only bounds the number of loop turns (the source loop can run
forever when planning keeps producing a falsy plan); `none` means the fuel
ran out before a terminal decision. -/
def runLoop (maxIterations : Nat) (o : RunOracle) :
    Nat → AgentState → Nat → Nat → RunStats → Option RunOutcome
  | 0, _, _, _, _ => none
  | fuel + 1, st, sIdx, dIdx, stats =>
    match supervisor_node st (o.resp sIdx) (o.supTime sIdx) with
    | .error e => some (RunOutcome.crashed e)
    | .ok ret =>
      let st' := applyNodeUpdate st ret
      let stats' : RunStats :=
        { stats with
          planningCalls := stats.planningCalls + (if planningPhase st then 1 else 0)
          routingCalls := stats.routingCalls + (if planningPhase st then 0 else 1)
          nonTerminal := stats.nonTerminal + (if isFinishVal st'.next_agent then 0 else 1) }
      let dest := route_after_supervisor maxIterations st'
      if dest = END then some (RunOutcome.finished st' stats')
      else
        let eff := o.work dIdx
        let st'' := applyNodeUpdate st'
          (record_agent_output st' dest eff.output eff.status (some eff.artifacts)
            (o.workTime dIdx))
        runLoop maxIterations o fuel st'' (sIdx + 1) (dIdx + 1)
          { stats' with dispatches := stats'.dispatches + 1 }

/-- `run_task` of `src/graph.py`: drive the loop from the initial state. -/
def runTask (maxIterations fuel : Nat) (o : RunOracle) (task repoPath : String) :
    Option RunOutcome :=
  runLoop maxIterations o fuel (create_initial_state task repoPath) 0 0 ⟨0, 0, 0, 0⟩

/-! ## Auxiliary definitions used by the theorems -/

/-- First-defined alternative of two optional values (how a Python
`dict.get` chain resolves a key that may be bound on either side). -/
def optOr : Option PyVal → Option PyVal → Option PyVal
  | some v, _ => some v
  | none, b => b

/-- The `routing_history` iterations are strictly increasing between
consecutive entries. -/
def histChain (l : List RouteEntry) : Prop :=
  List.Chain' (fun a b => a.iteration < b.iteration) l

/-- The invariant maintained at every loop entry of `runLoop`: the iteration
is still dispatchable, `routing_history` mirrors the routing-phase call
count and is strictly increasing below the current iteration, a state still
in the planning phase has an empty history, and the `agent_outputs` channel
length follows the reducer recurrence (doubling per supervisor step,
doubling-plus-one per worker step), whose closed form after `d` dispatches
at loop entry is `(4 ^ d - 1) / 3`. -/
def ceilingInv (maxIterations : Nat) (st : AgentState) (stats : RunStats) : Prop :=
  st.iteration ≤ maxIterations ∧
  st.routing_history.length = stats.routingCalls ∧
  histChain st.routing_history ∧
  (∀ e ∈ st.routing_history, e.iteration < st.iteration) ∧
  (planningPhase st = true → st.routing_history = [] ∧ stats.routingCalls = 0) ∧
  3 * st.agent_outputs.length = 4 ^ stats.dispatches - 1

/-- The name carried by a string-valued `PyVal`. -/
def pvName : PyVal → Option String
  | PyVal.str s => some s
  | _ => none

/-- A state in the routing phase (nonzero iteration, truthy plan). -/
def c1RoutingState : AgentState :=
  { create_initial_state "task" "repo" with iteration := 3, plan := PyVal.str "plan" }

/-- A routing-phase state whose iteration has reached the default ceiling. -/
def c2CeilingState : AgentState :=
  { create_initial_state "t" "r" with iteration := 12, plan := PyVal.str "plan" }

/-- A routing response naming a worker. -/
def c2Resp : String := "\x7b\"next_agent\": \"developer\", \"reason\": \"keep going\"\x7d"

/-- The state produced by the supervisor from `c2CeilingState` on `c2Resp`. -/
def c2After : AgentState :=
  match supervisor_node c2CeilingState (Except.ok c2Resp) "T" with
  | Except.ok s => s
  | Except.error _ => c2CeilingState

/-- A two-turn scripted environment: a well-formed plan, then a terminal
routing decision. -/
def demoResp : Nat → Except Unit String := fun n =>
  if n = 0 then
    Except.ok "\x7b\"plan\": \"p\", \"first_agent\": \"developer\", \"first_instruction\": \"do\"\x7d"
  else Except.ok "\x7b\"next_agent\": \"FINISH\", \"reason\": \"done\"\x7d"

/-- Oracle for the two-turn demo run. -/
def demoOracle : RunOracle :=
  { resp := demoResp, supTime := fun _ => "t",
    work := fun _ => ⟨"wrote `a.py`", "success", [("k", PyVal.str "v")]⟩,
    workTime := fun _ => "w" }

/-- The demo run: plan, dispatch the developer once, then finish. -/
def demoOutcome : Option RunOutcome := runTask MAX_ITERATIONS 10 demoOracle "task" "repo"

/-- Final state of the demo run. -/
def demoFinal : AgentState :=
  match demoOutcome with
  | some (RunOutcome.finished f _) => f
  | _ => create_initial_state "task" "repo"

/-- Instrumentation counters of the demo run. -/
def demoStats : RunStats :=
  match demoOutcome with
  | some (RunOutcome.finished _ s) => s
  | _ => ⟨0, 0, 0, 0⟩

/-- An environment whose completion call always fails with a transport
error. -/
def transportOracle : RunOracle :=
  { resp := fun _ => Except.error (), supTime := fun _ => "t",
    work := fun _ => ⟨"", "success", []⟩, workTime := fun _ => "t" }

/-- A routing-phase state used to exercise the completion-failure paths. -/
def c4RoutingState : AgentState :=
  { create_initial_state "t" "r" with iteration := 2, plan := PyVal.str "p" }

/-- Output-list length and non-terminal decision count of a finished run. -/
def outcomeOutputsNonTerm : Option RunOutcome → Option (Nat × Nat)
  | some (RunOutcome.finished f s) => some (f.agent_outputs.length, s.nonTerminal)
  | _ => none

/-- Lookup after a CPython dict assignment. -/
theorem pyDictGet_dictInsert (m : List (String × PyVal)) (k : String) (v : PyVal) (k' : String) :
    pyDictGet (dictInsert m k v) k' = if k' = k then some v else pyDictGet m k' := by
  induction m with
  | nil =>
    by_cases h : k' = k
    · subst h; simp [dictInsert, pyDictGet]
    · simp [dictInsert, pyDictGet, h, Ne.symm h]
  | cons p rest ih =>
    obtain ⟨k0, v0⟩ := p
    by_cases h0 : k0 = k
    · subst h0
      by_cases h' : k' = k0
      · subst h'; simp [dictInsert, pyDictGet]
      · simp [dictInsert, pyDictGet, h', Ne.symm h']
    · by_cases h' : k0 = k'
      · subst h'
        simp [dictInsert, pyDictGet, h0, Ne.symm h0, ih]
      · simp [dictInsert, pyDictGet, h0, h', ih]

/-- Lookup after `dict.update`: the updating dict wins (at its last binding),
the base dict answers otherwise. -/
theorem pyDictGet_pyDictUpdate (u m : List (String × PyVal)) (k : String) :
    pyDictGet (pyDictUpdate m u) k = optOr (pyDictGetLast u k) (pyDictGet m k) := by
  induction u generalizing m with
  | nil => simp [pyDictUpdate, pyDictGetLast, optOr]
  | cons p rest ih =>
    obtain ⟨k0, v0⟩ := p
    rw [show pyDictUpdate m ((k0, v0) :: rest) = pyDictUpdate (dictInsert m k0 v0) rest from rfl]
    rw [ih]
    rw [pyDictGet_dictInsert]
    simp only [pyDictGetLast]
    cases hl : pyDictGetLast rest k with
    | some v => simp [optOr]
    | none =>
      by_cases hk : k = k0
      · subst hk; simp [optOr]
      · simp [optOr, hk, Ne.symm hk]

/-- The planning branch always writes iteration 1. -/
theorem planningApply_iteration (st : AgentState) (d : List (String × PyVal)) :
    (planningApply st d).iteration = 1 := rfl

/-- A successful planning step is `planningApply` on some dict. -/
theorem planningStep_shape (st : AgentState) (raw : String) (st' : AgentState)
    (h : planningStep st raw = Except.ok st') : ∃ d, st' = planningApply st d := by
  unfold planningStep at h
  split at h
  · exact Except.noConfusion h
  · exact ⟨_, (Except.ok.inj h).symm⟩
  · exact ⟨_, (Except.ok.inj h).symm⟩

/-- A successful routing step is `routingApply` on some dict. -/
theorem routingStep_shape (st : AgentState) (raw now : String) (st' : AgentState)
    (h : routingStep st raw now = Except.ok st') : ∃ d, st' = routingApply st d now := by
  unfold routingStep at h
  split at h
  · exact Except.noConfusion h
  · exact ⟨_, (Except.ok.inj h).symm⟩
  · exact ⟨_, (Except.ok.inj h).symm⟩

/-- The routing branch never makes a truthy plan falsy. -/
theorem routingApply_plan_truthy (st : AgentState) (d : List (String × PyVal)) (now : String)
    (h : pyTruthy st.plan = true) : pyTruthy (routingApply st d now).plan = true := by
  unfold routingApply
  dsimp only
  by_cases hp : pyTruthy (pyDictGetD d "plan_update" PyVal.null) <;> simp [hp, h]

/-- State shape after a successful planning-phase supervisor call. -/
theorem supervisor_node_ok_planning (st : AgentState) (resp : Except Unit String) (now : String)
    (st' : AgentState) (hphase : planningPhase st = true)
    (h : supervisor_node st resp now = Except.ok st') :
    st'.iteration = 1 ∧ st'.routing_history = [] ∧ st'.agent_outputs = st.agent_outputs := by
  cases resp with
  | error u => exact Except.noConfusion (show Except.error RunError.transport = Except.ok st' from h)
  | ok raw =>
    rw [show supervisor_node st (Except.ok raw) now
        = if planningPhase st then planningStep st raw else routingStep st raw now from rfl,
      hphase] at h
    simp only [if_true] at h
    obtain ⟨d, rfl⟩ := planningStep_shape st raw st' h
    exact ⟨rfl, rfl, rfl⟩

/-- State shape after a successful routing-phase supervisor call. -/
theorem supervisor_node_ok_routing (st : AgentState) (resp : Except Unit String) (now : String)
    (st' : AgentState) (hphase : planningPhase st = false)
    (h : supervisor_node st resp now = Except.ok st') :
    st'.iteration = st.iteration + 1 ∧
    (∃ a r, st'.routing_history = st.routing_history ++ [⟨st.iteration, a, r, now⟩]) ∧
    st'.agent_outputs = st.agent_outputs ∧
    (pyTruthy st.plan = true → pyTruthy st'.plan = true) := by
  cases resp with
  | error u => exact Except.noConfusion (show Except.error RunError.transport = Except.ok st' from h)
  | ok raw =>
    rw [show supervisor_node st (Except.ok raw) now
        = if planningPhase st then planningStep st raw else routingStep st raw now from rfl,
      hphase] at h
    simp only [if_false, Bool.false_eq_true] at h
    obtain ⟨d, rfl⟩ := routingStep_shape st raw now st' h
    exact ⟨rfl, ⟨_, _, rfl⟩, rfl, fun hp => routingApply_plan_truthy st d now hp⟩

/-- The conditional edge dispatches a worker only below the ceiling. -/
theorem route_ne_end_iteration (maxIterations : Nat) (st : AgentState)
    (h : route_after_supervisor maxIterations st ≠ END) :
    st.iteration ≤ maxIterations := by
  unfold route_after_supervisor at h
  by_cases hc : st.iteration > maxIterations
  · simp [hc] at h
  · omega

/-- Appending an entry larger than every element preserves the strict
increase of `routing_history` iterations. -/
theorem histChain_snoc (l : List RouteEntry) (x : RouteEntry)
    (hc : histChain l) (hlt : ∀ e ∈ l, e.iteration < x.iteration) :
    histChain (l ++ [x]) := by
  unfold histChain at hc ⊢
  rw [List.chain'_append]
  refine ⟨hc, List.chain'_singleton x, ?_⟩
  intro y hy z hz
  have hz' : x = z := by simpa using hz
  subst hz'
  obtain ⟨hne, hyx⟩ := List.mem_getLast?_eq_getLast hy
  rw [hyx]
  exact hlt _ (List.getLast_mem hne)

/-- The Output Normalizer does not touch `iteration`. -/
theorem record_iteration_eq (st : AgentState) (n out status : String)
    (arts : Option (List (String × PyVal))) (now : String) :
    (record_agent_output st n out status arts now).iteration = st.iteration := rfl

/-- The Output Normalizer does not touch `routing_history`. -/
theorem record_routing_history_eq (st : AgentState) (n out status : String)
    (arts : Option (List (String × PyVal))) (now : String) :
    (record_agent_output st n out status arts now).routing_history = st.routing_history := rfl

/-- The Output Normalizer does not touch `plan`. -/
theorem record_plan_eq (st : AgentState) (n out status : String)
    (arts : Option (List (String × PyVal))) (now : String) :
    (record_agent_output st n out status arts now).plan = st.plan := rfl

/-- The Output Normalizer appends exactly one `agent_outputs` entry. -/
theorem record_agent_outputs_eq (st : AgentState) (n out status : String)
    (arts : Option (List (String × PyVal))) (now : String) :
    (record_agent_output st n out status arts now).agent_outputs
      = st.agent_outputs ++ [⟨n, out, status, now, st.iteration⟩] := rfl

/-- The planning guard is false exactly on a nonzero iteration with a truthy
plan. -/
theorem planningPhase_false_iff (st : AgentState) :
    planningPhase st = false ↔ (st.iteration ≠ 0 ∧ pyTruthy st.plan = true) := by
  simp [planningPhase]

/-- `iteration` is a last-value channel. -/
theorem applyNodeUpdate_iteration (st ret : AgentState) :
    (applyNodeUpdate st ret).iteration = ret.iteration := rfl

/-- `routing_history` is a last-value channel. -/
theorem applyNodeUpdate_routing_history (st ret : AgentState) :
    (applyNodeUpdate st ret).routing_history = ret.routing_history := rfl

/-- `plan` is a last-value channel. -/
theorem applyNodeUpdate_plan (st ret : AgentState) :
    (applyNodeUpdate st ret).plan = ret.plan := rfl

/-- The `operator.add` reducer of the `agent_outputs` channel. -/
theorem applyNodeUpdate_agent_outputs (st ret : AgentState) :
    (applyNodeUpdate st ret).agent_outputs = st.agent_outputs ++ ret.agent_outputs := rfl

/-- Master invariant of the graph loop: any run that reaches a terminal
decision from an invariant-satisfying state ends with `iteration` at most
one beyond the ceiling, a `routing_history` mirroring the routing-call
count with strictly increasing iterations, and an `agent_outputs` channel
whose length follows the `operator.add` reducer recurrence — it closes at
`2 * (4 ^ dispatches - 1) / 3` after the final supervisor doubling. -/
theorem runLoop_master (maxIterations : Nat) (o : RunOracle) :
    ∀ (fuel : Nat) (st : AgentState) (sIdx dIdx : Nat) (stats : RunStats)
      (f : AgentState) (s : RunStats),
      ceilingInv maxIterations st stats →
      runLoop maxIterations o fuel st sIdx dIdx stats = some (RunOutcome.finished f s) →
      f.iteration ≤ maxIterations + 1 ∧
      f.routing_history.length = s.routingCalls ∧
      histChain f.routing_history ∧
      3 * f.agent_outputs.length = 2 * (4 ^ s.dispatches - 1) := by
  intro fuel
  induction fuel with
  | zero =>
    intro st sIdx dIdx stats f s hinv h
    exact Option.noConfusion h
  | succ fuel ih =>
    intro st sIdx dIdx stats f s hinv h
    obtain ⟨hIt, hLen, hChain, hLt, hGuard, hOut⟩ := hinv
    have hpos : 0 < 4 ^ stats.dispatches := pow_pos (by norm_num) _
    unfold runLoop at h
    cases hsup : supervisor_node st (o.resp sIdx) (o.supTime sIdx) with
    | error e =>
      rw [hsup] at h
      simp at h
    | ok ret =>
      rw [hsup] at h
      simp only [] at h
      by_cases hdest : route_after_supervisor maxIterations (applyNodeUpdate st ret) = END
      · rw [if_pos hdest] at h
        have h2 := Option.some.inj h
        obtain ⟨hf, hs⟩ := RunOutcome.finished.inj h2
        rw [← hf, ← hs]
        by_cases hphase : planningPhase st = true
        · obtain ⟨hIt1, hRH, hAO⟩ := supervisor_node_ok_planning st _ _ ret hphase hsup
          obtain ⟨hRH0, hRC0⟩ := hGuard hphase
          refine ⟨?_, ?_, ?_, ?_⟩
          · rw [applyNodeUpdate_iteration]; omega
          · rw [applyNodeUpdate_routing_history, hRH]
            simp [hphase, hRC0]
          · rw [applyNodeUpdate_routing_history, hRH]; exact List.chain'_nil
          · rw [applyNodeUpdate_agent_outputs, hAO]
            simp only [List.length_append]
            omega
        · have hphase' : planningPhase st = false := by
            revert hphase; cases planningPhase st <;> simp
          obtain ⟨hIt1, ⟨a, r, hRH⟩, hAO, hPlan⟩ :=
            supervisor_node_ok_routing st _ _ ret hphase' hsup
          refine ⟨?_, ?_, ?_, ?_⟩
          · rw [applyNodeUpdate_iteration]; omega
          · rw [applyNodeUpdate_routing_history, hRH]
            simp [hphase', hLen]
          · rw [applyNodeUpdate_routing_history, hRH]
            exact histChain_snoc _ _ hChain (fun e he => hLt e he)
          · rw [applyNodeUpdate_agent_outputs, hAO]
            simp only [List.length_append, hphase']
            omega
      · rw [if_neg hdest] at h
        have hIt' : (applyNodeUpdate st ret).iteration ≤ maxIterations :=
          route_ne_end_iteration _ _ hdest
        rw [applyNodeUpdate_iteration] at hIt'
        by_cases hphase : planningPhase st = true
        · obtain ⟨hIt1, hRH, hAO⟩ := supervisor_node_ok_planning st _ _ ret hphase hsup
          obtain ⟨hRH0, hRC0⟩ := hGuard hphase
          refine ih _ _ _ _ _ _ ⟨?_, ?_, ?_, ?_, ?_, ?_⟩ h
          · rw [applyNodeUpdate_iteration, record_iteration_eq, applyNodeUpdate_iteration]
            exact hIt'
          · rw [applyNodeUpdate_routing_history, record_routing_history_eq,
              applyNodeUpdate_routing_history, hRH]
            simp [hphase, hRC0]
          · rw [applyNodeUpdate_routing_history, record_routing_history_eq,
              applyNodeUpdate_routing_history, hRH]
            exact List.chain'_nil
          · rw [applyNodeUpdate_routing_history, record_routing_history_eq,
              applyNodeUpdate_routing_history, hRH]
            intro e he; cases he
          · intro _
            rw [applyNodeUpdate_routing_history, record_routing_history_eq,
              applyNodeUpdate_routing_history, hRH]
            simp [hphase, hRC0]
          · rw [applyNodeUpdate_agent_outputs, record_agent_outputs_eq,
              applyNodeUpdate_agent_outputs, hAO]
            simp only [List.length_append, List.length_singleton, hphase, pow_succ]
            omega
        · have hphase' : planningPhase st = false := by
            revert hphase; cases planningPhase st <;> simp
          obtain ⟨hIt1, ⟨a, r, hRH⟩, hAO, hPlan⟩ :=
            supervisor_node_ok_routing st _ _ ret hphase' hsup
          have hTr : pyTruthy st.plan = true := ((planningPhase_false_iff st).mp hphase').2
          have hTr' : pyTruthy ret.plan = true := hPlan hTr
          refine ih _ _ _ _ _ _ ⟨?_, ?_, ?_, ?_, ?_, ?_⟩ h
          · rw [applyNodeUpdate_iteration, record_iteration_eq, applyNodeUpdate_iteration]
            exact hIt'
          · rw [applyNodeUpdate_routing_history, record_routing_history_eq,
              applyNodeUpdate_routing_history, hRH]
            simp [hphase', hLen]
          · rw [applyNodeUpdate_routing_history, record_routing_history_eq,
              applyNodeUpdate_routing_history, hRH]
            exact histChain_snoc _ _ hChain (fun e he => hLt e he)
          · rw [applyNodeUpdate_routing_history, record_routing_history_eq,
              applyNodeUpdate_routing_history, applyNodeUpdate_iteration,
              record_iteration_eq, applyNodeUpdate_iteration, hRH, hIt1]
            intro e he
            rcases List.mem_append.mp he with hin | hone
            · exact Nat.lt_succ_of_lt (hLt e hin)
            · have he' : e = ⟨st.iteration, a, r, o.supTime sIdx⟩ := by simpa using hone
              rw [he']
              exact Nat.lt_succ_self _
          · intro habs
            have hcontra : planningPhase (applyNodeUpdate (applyNodeUpdate st ret)
                (record_agent_output (applyNodeUpdate st ret)
                  (route_after_supervisor maxIterations (applyNodeUpdate st ret))
                  (o.work dIdx).output (o.work dIdx).status
                  (some (o.work dIdx).artifacts) (o.workTime dIdx))) = false := by
              rw [planningPhase_false_iff]
              constructor
              · rw [applyNodeUpdate_iteration, record_iteration_eq,
                  applyNodeUpdate_iteration, hIt1]
                exact Nat.succ_ne_zero _
              · rw [applyNodeUpdate_plan, record_plan_eq, applyNodeUpdate_plan]
                exact hTr'
            rw [habs] at hcontra
            exact Bool.noConfusion hcontra
          · rw [applyNodeUpdate_agent_outputs, record_agent_outputs_eq,
              applyNodeUpdate_agent_outputs, hAO]
            simp only [List.length_append, List.length_singleton, hphase', pow_succ]
            omega

/-- The empty initial state satisfies the loop invariant. -/
theorem ceilingInv_initial (maxIterations : Nat) (task repoPath : String) :
    ceilingInv maxIterations (create_initial_state task repoPath) ⟨0, 0, 0, 0⟩ := by
  refine ⟨Nat.zero_le _, rfl, List.chain'_nil, ?_, ?_, rfl⟩
  · intro e he; cases he
  · intro _; exact ⟨rfl, rfl⟩

/-! ## Claim theorems -/

/-- C1: the spec asserts that the decision parser is total — for every raw
string it returns, without raising, a decision whose `next_agent` lies in
the five worker roles plus `FINISH`, degrading unparseable input to the
safe-terminal decision.  The code violates this: on the input `"3"` (valid
JSON that is not an object) `json.loads` yields an `int`, the subsequent
`data.get("next_agent", "")` raises `AttributeError`, and since the call
site catches only `ValueError`, the exception escapes `supervisor_node`
instead of producing the `FINISH` fallback. -/
theorem parse_decision_scalar_json_attribute_error :
    parse_json_response "3" = Except.error PyErr.attributeError ∧
    supervisor_node c1RoutingState (Except.ok "3") "t" = Except.error RunError.attributeError :=
  ⟨rfl, rfl⟩

/-- C2 (counterexample): with iteration at the ceiling (12) and the model
naming `developer`, the supervisor does not override the decision — the
appended `routing_history` entry and `next_agent` carry `developer`, not
the terminal sentinel, contradicting the claimed force-override. -/
theorem ceiling_no_override_cex :
    (supervisor_node c2CeilingState (Except.ok c2Resp) "T").map
        (fun s => (s.routing_history.map (fun e => pvName e.agent), pvName s.next_agent))
      = Except.ok ([some "developer"], some "developer") ∧
    (some "developer" ≠ some "FINISH") := ⟨rfl, by decide⟩

/-- C2 (amended): when iteration has reached the ceiling, the supervisor
records the model's decision unchanged, but the incremented iteration makes
the conditional-routing function return `END`, so no worker is dispatched
and the run terminates. -/
theorem ceiling_refuses_dispatch (maxIterations : Nat) (st : AgentState)
    (response : Except Unit String) (now : String) (st' : AgentState)
    (hphase : planningPhase st = false) (hceil : maxIterations ≤ st.iteration)
    (hok : supervisor_node st response now = Except.ok st') :
    route_after_supervisor maxIterations st' = END := by
  obtain ⟨hIt1, _, _, _⟩ := supervisor_node_ok_routing st response now st' hphase hok
  unfold route_after_supervisor
  rw [if_pos (by omega)]

/-- Witness for C2 (amended) at the ceiling state and a `developer`
response: the routing function refuses the dispatch. -/
theorem ceiling_refuses_dispatch_w :
    route_after_supervisor MAX_ITERATIONS c2After = END :=
  ceiling_refuses_dispatch MAX_ITERATIONS c2CeilingState (Except.ok c2Resp) "T" c2After
    rfl (by decide) rfl

/-- C3: every run that reaches a terminal decision from the initial state
(iteration 0) ends with `iteration ≤ ceiling + 1`, because the driver
refuses to dispatch a worker once the iteration exceeds the ceiling. -/
theorem final_iteration_le_ceiling_succ (maxIterations fuel : Nat) (o : RunOracle)
    (task repoPath : String) (f : AgentState) (s : RunStats)
    (h : runTask maxIterations fuel o task repoPath = some (RunOutcome.finished f s)) :
    f.iteration ≤ maxIterations + 1 :=
  (runLoop_master maxIterations o fuel (create_initial_state task repoPath) 0 0 ⟨0, 0, 0, 0⟩
    f s (ceilingInv_initial maxIterations task repoPath) h).1

/-- Witness for C3 on the concrete demo run. -/
theorem final_iteration_le_ceiling_succ_w :
    demoFinal.iteration ≤ MAX_ITERATIONS + 1 :=
  final_iteration_le_ceiling_succ MAX_ITERATIONS 10 demoOracle "task" "repo" demoFinal demoStats rfl

/-- C4 (counterexample): a transport failure of the completion call is not
caught at the call site — the whole run crashes with the transport error
instead of returning a final state with a substituted decision. -/
theorem transport_error_crashes_run_cex :
    runTask MAX_ITERATIONS 4 transportOracle "t" "r"
      = some (RunOutcome.crashed RunError.transport) := rfl

/-- C4 (amended): the `except ValueError` at the two call sites substitutes
fallbacks only for parse failures of the response text — the safe-terminal
decision in the routing phase and the single-step default plan (developer,
iteration 1) in the planning phase; a transport/timeout failure of the
completion call itself propagates out of `supervisor_node` uncaught. -/
theorem completion_failure_handling (st stP : AgentState) (now raw : String)
    (hphase : planningPhase st = false) (hphaseP : planningPhase stP = true)
    (hp : parse_json_response raw = Except.error PyErr.valueError) :
    supervisor_node st (Except.error ()) now = Except.error RunError.transport ∧
    (supervisor_node st (Except.ok raw) now).map (fun s => pvName s.next_agent)
      = Except.ok (some "FINISH") ∧
    (supervisor_node stP (Except.ok raw) now).map (fun s => (pvName s.next_agent, s.iteration))
      = Except.ok (some "developer", 1) := by
  refine ⟨rfl, ?_, ?_⟩
  · rw [show supervisor_node st (Except.ok raw) now
        = if planningPhase st then planningStep st raw else routingStep st raw now from rfl,
      hphase]
    simp only [Bool.false_eq_true, if_false]
    unfold routingStep
    rw [hp]
    rfl
  · rw [show supervisor_node stP (Except.ok raw) now
        = if planningPhase stP then planningStep stP raw else routingStep stP raw now from rfl,
      hphaseP]
    simp only [if_true]
    unfold planningStep
    rw [hp]
    rfl

/-- Witness for C4 (amended) at concrete states and the unparseable
response `"no json here"`. -/
theorem completion_failure_handling_w :
    supervisor_node c4RoutingState (Except.error ()) "t" = Except.error RunError.transport ∧
    (supervisor_node c4RoutingState (Except.ok "no json here") "t").map
        (fun s => pvName s.next_agent) = Except.ok (some "FINISH") ∧
    (supervisor_node (create_initial_state "t" "r") (Except.ok "no json here") "t").map
        (fun s => (pvName s.next_agent, s.iteration)) = Except.ok (some "developer", 1) :=
  completion_failure_handling c4RoutingState (create_initial_state "t" "r") "t" "no json here"
    rfl rfl rfl

/-- C5: a worker invocation that raises is absorbed by the node's exception
handler — the node is a total function that synthesises an error report
and records it through the Output Normalizer exactly like a success (one
appended `agent_outputs` entry with status `error`, all other state fields
unchanged), so the graph proceeds to the next supervisor call rather than
crashing. -/
theorem developer_node_error_is_recorded (st : AgentState) (emsg now : String) :
    developer_node st (Except.error emsg) now =
      { st with agent_outputs := st.agent_outputs ++
          [⟨"developer", "❌ Erro no Developer Agent: " ++ emsg, "error", now, st.iteration⟩] } :=
  rfl

/-- C6 (counterexample): in the demo run (plan, one dispatch, then the
terminal decision) one non-terminal decision is made, yet the final
`agent_outputs` has length 2: the Output Normalizer appended one entry,
but the `operator.add` channel re-added the full list a worker or
supervisor node returns at each node execution, so the claimed equality
fails. -/
theorem outputs_ne_nonterminal_cex :
    outcomeOutputsNonTerm (runTask MAX_ITERATIONS 10 demoOracle "task" "repo") = some (2, 1) ∧
    (2 : Nat) ≠ 1 :=
  ⟨rfl, by decide⟩

/-- C6 (amended): each dispatch runs the Output Normalizer exactly once,
appending one entry to the list the worker returns, and the terminal step
appends none; but `agent_outputs` is an `operator.add` reducer channel and
every node returns the full list, so the channel doubles at each
supervisor step and doubles-plus-one at each worker step.  The final
length therefore satisfies `3 * len = 2 * (4 ^ d - 1)` for `d` dispatched
workers — duplicated entries rather than the number of non-terminal
routing decisions. -/
theorem agent_outputs_channel_length (maxIterations fuel : Nat) (o : RunOracle)
    (task repoPath : String) (f : AgentState) (s : RunStats)
    (h : runTask maxIterations fuel o task repoPath = some (RunOutcome.finished f s)) :
    3 * f.agent_outputs.length = 2 * (4 ^ s.dispatches - 1) :=
  (runLoop_master maxIterations o fuel (create_initial_state task repoPath) 0 0 ⟨0, 0, 0, 0⟩
    f s (ceilingInv_initial maxIterations task repoPath) h).2.2.2

/-- Witness for C6 (amended) on the concrete demo run (one dispatch, final
length 2: `3 * 2 = 2 * (4 - 1)`). -/
theorem agent_outputs_channel_length_w :
    3 * demoFinal.agent_outputs.length = 2 * (4 ^ demoStats.dispatches - 1) :=
  agent_outputs_channel_length MAX_ITERATIONS 10 demoOracle "task" "repo" demoFinal demoStats rfl

/-- C7: in every finished run the `routing_history` length equals the number
of routing-phase supervisor calls (each appends exactly one entry,
terminal decision included; the planning call appends none), and the
recorded iterations are strictly increasing between consecutive entries. -/
theorem routing_history_calls_and_increasing (maxIterations fuel : Nat) (o : RunOracle)
    (task repoPath : String) (f : AgentState) (s : RunStats)
    (h : runTask maxIterations fuel o task repoPath = some (RunOutcome.finished f s)) :
    f.routing_history.length = s.routingCalls ∧ histChain f.routing_history :=
  ⟨(runLoop_master maxIterations o fuel (create_initial_state task repoPath) 0 0 ⟨0, 0, 0, 0⟩
      f s (ceilingInv_initial maxIterations task repoPath) h).2.1,
   (runLoop_master maxIterations o fuel (create_initial_state task repoPath) 0 0 ⟨0, 0, 0, 0⟩
      f s (ceilingInv_initial maxIterations task repoPath) h).2.2.1⟩

/-- Witness for C7 on the concrete demo run. -/
theorem routing_history_calls_and_increasing_w :
    demoFinal.routing_history.length = demoStats.routingCalls ∧
    histChain demoFinal.routing_history :=
  routing_history_calls_and_increasing MAX_ITERATIONS 10 demoOracle "task" "repo"
    demoFinal demoStats rfl

/-- C8: the spec asserts the planning operation always defaults an absent,
invalid or terminal `first_agent` to the developer and always writes
`iteration = 1`, `plan`, `next_agent`, `current_instruction`.  The default
does work on parsed objects (second conjunct: `first_agent = "FINISH"`
becomes `developer` with iteration 1), but a planning response parsing to
a non-object JSON value (here `"[1]"`) raises `AttributeError` past the
`except ValueError`, so the state is never written — the code violates the
"in every case" part of the claim. -/
theorem planning_nonobject_response_attribute_error :
    supervisor_node (create_initial_state "task" "repo") (Except.ok "[1]") "t"
      = Except.error RunError.attributeError ∧
    (supervisor_node (create_initial_state "task" "repo")
        (Except.ok "\x7b\"plan\": \"p\", \"first_agent\": \"FINISH\"\x7d") "t").map
      (fun s => (pvName s.next_agent, s.iteration)) = Except.ok (some "developer", 1) :=
  ⟨rfl, rfl⟩

/-- C9: recording a report shallow-merges its artifacts into the state's
artifacts with the report's (later) values winning on key collision, and
the merge is idempotent: merging the same dict again leaves the mapping
unchanged in content at every key. -/
theorem record_agent_output_shallow_merge (st : AgentState) (n out status : String)
    (arts : List (String × PyVal)) (now : String) :
    (record_agent_output st n out status (some arts) now).artifacts
        = pyDictUpdate st.artifacts arts ∧
    (∀ k, pyDictGet (pyDictUpdate st.artifacts arts) k
        = optOr (pyDictGetLast arts k) (pyDictGet st.artifacts k)) ∧
    (∀ k, pyDictGet (pyDictUpdate (pyDictUpdate st.artifacts arts) arts) k
        = pyDictGet (pyDictUpdate st.artifacts arts) k) := by
  refine ⟨?_, fun k => pyDictGet_pyDictUpdate arts st.artifacts k, fun k => ?_⟩
  · cases arts with
    | nil => rfl
    | cons p rest => rfl
  · rw [pyDictGet_pyDictUpdate, pyDictGet_pyDictUpdate]
    cases pyDictGetLast arts k <;> simp [optOr]

